import Mathlib

/-!
Verification of the Spark prompt/context-assembly pipeline.

This file gives a shallow embedding of the prompt-assembly code
(`src/unnamed/part_000`, i.e. the centralized prompts module; the metadata
helpers of `src/unnamed/part_002`; and the user-prompt selection switch of
`src/src/app/api/spark/route.ts`) and proves properties of it.

Modelling conventions, fixed once here:

* A JS `string` is a Lean `String`; a JS `string | null` or
  `string | undefined` is an `Option String`.  JS slices by UTF-16 code
  units and Lean `String.length` counts characters; the two agree on the
  material the pipeline handles, and the embedding models `s.slice(0, n)`
  as the first `n` characters (`sliceTo`).
* JS truthiness of an optional string (`if (s)`, `s ? a : b`, `s || t`)
  holds exactly when the value is present and non-empty (`optTruthy`).
* `metadata` is declared `Record<string, unknown>` in the source, but the
  pipeline only ever reads the keys `title`, `description`, `url`,
  `public_url`, `filename`, `file_name`, `note`, each cast to `string`;
  the embedding records exactly those keys as optional strings.
* `created_at` is an optional ISO timestamp string, consumed only through
  `new Date(s).getTime()`; the embedding stores that millisecond value
  directly as an `Option Int`.  A missing or empty string returns 0 from
  the comparator before any date parsing, and an unparseable string makes
  `getTime()` return NaN, which ECMA-262 folds to a comparator result of
  +0; both therefore behave as the `none` case of the embedding.
* `Array.prototype.sort` is required by ECMA-262 to be stable.  When the
  comparator is consistent, stability plus sortedness determine the output
  uniquely, so any stable sort is a faithful model; the embedding uses a
  stable insertion sort (`insertSorted`/`jsSortElements`).  When the
  comparator is inconsistent — possible here exactly when some elements
  lack `created_at` — ECMA-262 leaves the order implementation-defined.
-/

namespace Spark

/-- JS truthiness of a `string | null | undefined` value: present and
non-empty. -/
def optTruthy (o : Option String) : Bool := o.getD "" != ""

/-- JS `a || b` on optional strings: `a` when truthy, otherwise `b`. -/
def jsOr (a b : Option String) : Option String := if optTruthy a then a else b

/-- Model of JS `s.slice(0, n)`: the first `n` characters of `s`. -/
def sliceTo (s : String) (n : Nat) : String := String.mk (s.data.take n)

/-- Helper for `strIncludes`: does `sub` occur as a contiguous run in the
second list? -/
def hasSubList (sub : List Char) : List Char → Bool
  | [] => sub.isPrefixOf ([] : List Char)
  | c :: rest => sub.isPrefixOf (c :: rest) || hasSubList sub rest

/-- Model of JS `s.includes(sub)`. -/
def strIncludes (s sub : String) : Bool := hasSubList sub.data s.data

/-- The metadata keys the pipeline reads (the source declares metadata as
`Record<string, unknown>` and casts each of these keys to `string`). -/
structure Metadata where
  title : Option String := none
  description : Option String := none
  url : Option String := none
  public_url : Option String := none
  filename : Option String := none
  file_name : Option String := none
  note : Option String := none
deriving DecidableEq

/-- An element as consumed by `buildElementsSummary`
(`src/unnamed/part_000` lines 159-165): `{ type, source, content,
metadata, created_at? }`.  `created_at` is modelled by its
`new Date(·).getTime()` value; see the module docstring. -/
structure Element where
  type : String
  source : String
  content : Option String
  metadata : Metadata
  created_at : Option Int
deriving DecidableEq

/-- The sort comparator of `buildElementsSummary` (part_000 lines 169-172):
`if (!a.created_at || !b.created_at) return 0; return
new Date(b.created_at).getTime() - new Date(a.created_at).getTime()`. -/
def compareElements (a b : Element) : Int :=
  match a.created_at, b.created_at with
  | some ta, some tb => tb - ta
  | _, _ => 0

/-- One step of the stable sort modelling `Array.prototype.sort`: insert
`x` before the first already-placed element `y` with `compare x y < 0`,
after all elements that tie with or precede it (stability: a later input
element is placed after its ties). -/
def insertSorted (x : Element) : List Element → List Element
  | [] => [x]
  | y :: rest =>
    if compareElements x y < 0 then x :: y :: rest else y :: insertSorted x rest

/-- Model of `[...elements].sort(comparator)` (part_000 lines 169-172):
a stable comparison sort with `compareElements`.  See the module
docstring for why a stable insertion sort is a faithful model. -/
def jsSortElements (l : List Element) : List Element :=
  l.foldl (fun acc x => insertSorted x acc) []

/-- `MAX_RECENT_ELEMENTS` (part_000 line 156). -/
def MAX_RECENT_ELEMENTS : Nat := 10

/-- `MAX_CONTENT_LENGTH` (part_000 line 157). -/
def MAX_CONTENT_LENGTH : Nat := 300

/-- The content string derived for one element (part_000 lines 181-197):
title, else content; append description when new; fall back to
url/public_url, then filename/file_name, when still empty. -/
def derivedContent (el : Element) : String :=
  let c0 : String :=
    if optTruthy el.metadata.title then el.metadata.title.getD ""
    else if optTruthy el.content then el.content.getD ""
    else ""
  let desc := el.metadata.description.getD ""
  let c1 : String :=
    if optTruthy el.metadata.description && !(strIncludes c0 desc) then
      (if c0 = "" then desc else c0 ++ " — " ++ desc)
    else c0
  let elUrl := jsOr el.metadata.url el.metadata.public_url
  let c2 : String := if c1 = "" && optTruthy elUrl then elUrl.getD "" else c1
  let elFilename := jsOr el.metadata.filename el.metadata.file_name
  if c2 = "" && optTruthy elFilename then elFilename.getD "" else c2

/-- The recency-asymmetric truncation of part_000 lines 199-208: elements
at 0-based sorted index `≥ MAX_RECENT_ELEMENTS` are cut at 80 characters
with an ellipsis, earlier ones at `MAX_CONTENT_LENGTH`. -/
def truncateContent (index : Nat) (content : String) : String :=
  if MAX_RECENT_ELEMENTS ≤ index then
    if 80 < content.length then sliceTo content 80 ++ "..." else content
  else
    if MAX_CONTENT_LENGTH < content.length then
      sliceTo content MAX_CONTENT_LENGTH ++ "..."
    else content

/-- Appending the user note (part_000 lines 210-215): when
`metadata.note` is truthy, append ` [user note: "<note cut at 100>"]`. -/
def withNote (el : Element) (content : String) : String :=
  match el.metadata.note with
  | some note =>
    if note = "" then content
    else
      content ++ " [user note: \"" ++
        (if 100 < note.length then sliceTo note 100 ++ "..." else note) ++ "\"]"
  | none => content

/-- The line tag (part_000 line 177): `[spark]` for AI-sourced elements,
else `[<type>]`. -/
def elTag (el : Element) : String :=
  if el.source = "ai" then "[spark]" else "[" ++ el.type ++ "]"

/-- One summary line, `${prefix} ${content}` (part_000 line 217), for the
element at 0-based sorted position `index`. -/
def renderLine (index : Nat) (el : Element) : String :=
  elTag el ++ " " ++ withNote el (truncateContent index (derivedContent el))

/-- The `sorted.forEach((el, index) => ... lines.push(...))` loop
(part_000 lines 176-218), started at position `index`. -/
def linesFrom (index : Nat) : List Element → List String
  | [] => []
  | el :: rest => renderLine index el :: linesFrom (index + 1) rest

/-- The marker line `\n[...<N> earlier elements, summarized...]`
(part_000 line 223). -/
def markerLine (olderCount : Nat) : String :=
  "\n[..." ++ Nat.repr olderCount ++ " earlier elements, summarized...]"

/-- Model of `lines.splice(k, 0, x)`: insert `x` at index `k`. -/
def spliceAt (k : Nat) (x : String) (lines : List String) : List String :=
  lines.take k ++ x :: lines.drop k

/-- The per-element summary lines in sorted order, before the marker is
inserted. -/
def contentLines (elements : List Element) : List String :=
  linesFrom 0 (jsSortElements elements)

/-- All summary lines including the marker (part_000 lines 174-224). -/
def summaryLines (elements : List Element) : List String :=
  if MAX_RECENT_ELEMENTS < elements.length then
    spliceAt MAX_RECENT_ELEMENTS
      (markerLine (elements.length - MAX_RECENT_ELEMENTS)) (contentLines elements)
  else contentLines elements

/-- Model of `lines.join('\n')`. -/
def joinLines : List String → String
  | [] => ""
  | [line] => line
  | line :: rest => line ++ "\n" ++ joinLines rest

/-- `buildElementsSummary` (part_000 lines 159-227). -/
def buildElementsSummary (elements : List Element) : String :=
  if elements.length = 0 then "" else joinLines (summaryLines elements)

/-- `buildElementsSummary` with the JS heap made explicit, to express what
the call does to the caller's array.  The heap maps array references to
array contents; `elementsRef` is the caller's array and `newRef` is the
fresh reference allocated by the spread `[...elements]` (part_000 line
169).  `Array.prototype.sort` then mutates the array at `newRef`, i.e.
the copy.  Returns the summary string together with the final heap. -/
def buildElementsSummaryHeap (store : Nat → List Element) (elementsRef newRef : Nat) :
    String × (Nat → List Element) :=
  let elements := store elementsRef
  if elements.length = 0 then ("", store)
  else
    let store1 : Nat → List Element :=
      fun r => if r = newRef then store elementsRef else store r
    let store2 : Nat → List Element :=
      fun r => if r = newRef then jsSortElements (store1 newRef) else store1 r
    let lines := linesFrom 0 (store2 newRef)
    let lines2 :=
      if MAX_RECENT_ELEMENTS < elements.length then
        spliceAt MAX_RECENT_ELEMENTS
          (markerLine (elements.length - MAX_RECENT_ELEMENTS)) lines
      else lines
    (joinLines lines2, store2)

/-- `metaUrl` (`src/unnamed/part_002` lines 42-44):
`(meta?.url || meta?.public_url) as string | undefined`. -/
def metaUrl (meta : Metadata) : Option String := jsOr meta.url meta.public_url

/-- `metaFilename` (`src/unnamed/part_002` lines 46-48):
`(meta?.filename || meta?.file_name || 'File') as string`. -/
def metaFilename (meta : Metadata) : String :=
  if optTruthy meta.filename then meta.filename.getD ""
  else if optTruthy meta.file_name then meta.file_name.getD ""
  else "File"

/-- `SYSTEM_PROMPT_BASE` (part_000 lines 18-40). -/
def SYSTEM_PROMPT_BASE : String := "You are Spark, a thinking partner who helps users develop their ideas. You're not a generic assistant — you're a warm provocateur who pushes people to think harder and clearer.\n\nYOUR ROLE:\n- Make the user think, don't think for them\n- Challenge assumptions without being harsh\n- Ask genuine questions, not rhetorical ones\n- Reference their specific content, never be generic\n- Keep the ball in their court\n\nYOUR TONE:\n- Direct but warm — like a smart friend who genuinely wants to help\n- Curious and engaged — you find their ideas interesting\n- Concise — say what matters, skip the filler\n- NOT sycophantic (\"Great idea!\"), NOT harsh (\"This is flawed\"), NOT corporate (\"Based on my analysis\")\n\nCRITICAL RULES:\n- EVERY response must end with a genuine question back to the user\n- Be concise: 2-5 sentences max, then your question\n- One focused insight per response, not a list of observations\n- NEVER say you \"cannot access URLs\" — you have the context provided\n- NEVER use markdown headers, bullets, or formatting — plain prose only\n- NEVER start with \"Based on...\" or \"Looking at...\" — just state your insight\n- Reference their actual words, titles, and content — be specific"

/-- The early-stage maturity note (part_000 line 49). -/
def earlyStageNote (elementCount : Nat) : String :=
  "This is an early-stage idea with only " ++ Nat.repr elementCount ++
    " elements — focus on helping them clarify what they're actually exploring."

/-- The substantial-material maturity note (part_000 line 51). -/
def substantialNote (elementCount : Nat) : String :=
  "This idea has " ++ Nat.repr elementCount ++
    " elements — there's substantial material to synthesize and patterns to surface."

/-- The `maturityNote` local of `getSystemPromptWithIdea` (part_000 lines
48-52). -/
def maturityNote (elementCount : Nat) : String :=
  if elementCount ≤ 3 then earlyStageNote elementCount
  else if 15 ≤ elementCount then substantialNote elementCount
  else ""

/-- The context part of the template returned by `getSystemPromptWithIdea`
(part_000 lines 54-59): everything up to, but not including, the
interpolation of `maturityNote`.  String literals are written in their
natural pieces; `++` is associative so the value is the source's template
string. -/
def systemPromptContext (ideaTitle : String) (currentThinking : Option String)
    (elementsSummary : String) : String :=
  SYSTEM_PROMPT_BASE ++ "\n\nCONTEXT:\nThe user is developing an idea called \"" ++
    ideaTitle ++ "\".\n" ++
  (if optTruthy currentThinking then
      "\n" ++ "Their current thinking:\n\"" ++ currentThinking.getD "" ++ "\""
    else "\n" ++ "They haven't written their current thinking yet.") ++ "\n" ++
  (if elementsSummary != "" then
      "\n" ++ "Their collected elements:\n" ++ elementsSummary
    else "\n" ++ "No elements collected yet.") ++ "\n"

/-- `getSystemPromptWithIdea` (part_000 lines 42-61). -/
def getSystemPromptWithIdea (ideaTitle : String) (currentThinking : Option String)
    (elementsSummary : String) (elementCount : Nat) : String :=
  systemPromptContext ideaTitle currentThinking elementsSummary ++
    (if maturityNote elementCount != "" then "\n" ++ maturityNote elementCount else "")

/-- The user-prompt selection switch of the spark route
(`src/src/app/api/spark/route.ts` lines 202-221). -/
def selectUserPrompt (sparkType : String) (customPrompt : Option String) : String :=
  if sparkType = "synthesize" then
    "Look across all my elements and current thinking. What patterns or connections do you see? Synthesize the key threads into a coherent insight."
  else if sparkType = "challenge" then
    "Challenge my current thinking. What assumptions am I making? What am I missing? Push back on something specific."
  else if sparkType = "expand" then
    "Based on what I have so far, what adjacent territory should I explore? Suggest a specific direction I haven't considered."
  else if sparkType = "custom" ∨ sparkType = "mini" ∨ sparkType = "summarize" ∨
      sparkType = "related" then
    (if optTruthy customPrompt then customPrompt.getD ""
     else "What do you think about my idea so far?")
  else "What do you think about my idea so far?"

/-- The action identifiers the switch recognizes (its non-default cases). -/
def recognizedSparkTypes : List String :=
  ["synthesize", "challenge", "expand", "custom", "mini", "summarize", "related"]

/-- Substring containment between strings, used to state that a prompt
contains a given note or placeholder. -/
def strContains (big small : String) : Prop := ∃ p q : String, big = p ++ (small ++ q)

/-- Descending-`created_at` order on a pair of elements, vacuous when
either timestamp is missing. -/
def descPairB (a b : Element) : Bool :=
  match a.created_at, b.created_at with
  | some ta, some tb => tb ≤ ta
  | _, _ => true

/-- The relative-order property asserted by the sort claim: every pair
involving an element with a missing timestamp keeps its encountered
relative order in the output. -/
def keepsEncounteredOrder (input output : List Element) : Prop :=
  ∀ i j : Fin input.length, i.1 < j.1 →
    ((input.get i).created_at = none ∨ (input.get j).created_at = none) →
    ∃ i2 j2 : Fin output.length, i2.1 < j2.1 ∧
      output.get i2 = input.get i ∧ output.get j2 = input.get j

/-- A minimal element: no metadata, no content, no timestamp.  Its
summary line is `[t] `. -/
def plainElement : Element :=
  { type := "t", source := "user", content := none, metadata := {}, created_at := none }

/-- An element with timestamp 1 (earlier). -/
def elTs1 : Element :=
  { type := "thought", source := "user", content := some "first",
    metadata := {}, created_at := some 1 }

/-- An element with no timestamp, encountered between the two timestamped
ones. -/
def elNoTs : Element :=
  { type := "thought", source := "user", content := some "middle",
    metadata := {}, created_at := none }

/-- An element with timestamp 5 (later). -/
def elTs5 : Element :=
  { type := "thought", source := "user", content := some "last",
    metadata := {}, created_at := some 5 }

/-- An element whose derived content is 100 characters long (so it is
truncated at 80 when it sits at sorted index 10 or later) and which
carries a user note. -/
def elWithNote : Element :=
  { type := "article", source := "user",
    content := some (String.mk (List.replicate 100 'x')),
    metadata := { note := some "keep this" }, created_at := none }

/-! ## Basic string lemmas -/

theorem strData_append (a b : String) : (a ++ b).data = a.data ++ b.data := rfl

theorem strLength_eq_data (s : String) : s.length = s.data.length := rfl

theorem strLength_append (a b : String) : (a ++ b).length = a.length + b.length := by
  show (a.data ++ b.data).length = a.data.length + b.data.length
  exact List.length_append a.data b.data

theorem strAppend_assoc (a b c : String) : a ++ b ++ c = a ++ (b ++ c) := by
  apply String.ext
  show (a.data ++ b.data) ++ c.data = a.data ++ (b.data ++ c.data)
  exact List.append_assoc a.data b.data c.data

theorem strAppend_empty (s : String) : s ++ "" = s := by
  apply String.ext
  show s.data ++ [] = s.data
  exact List.append_nil _

theorem strNe_empty_of_length_pos {s : String} (h : 0 < s.length) : s ≠ "" := fun he => by
  rw [he] at h
  exact absurd h (by decide)


/-! ## Lemmas about the stable sort -/

theorem insertSorted_split (x : Element) (acc : List Element) :
    ∃ A B, acc = A ++ B ∧ insertSorted x acc = A ++ x :: B := by
  induction acc with
  | nil => exact ⟨[], [], rfl, rfl⟩
  | cons y rest ih =>
    by_cases h : compareElements x y < 0
    · exact ⟨[], y :: rest, rfl, by simp [insertSorted, h]⟩
    · obtain ⟨A, B, hAB, hins⟩ := ih
      exact ⟨y :: A, B, by rw [hAB]; rfl, by simp only [insertSorted, if_neg h, hins]; rfl⟩

theorem insertSorted_perm (x : Element) (acc : List Element) :
    List.Perm (insertSorted x acc) (x :: acc) := by
  obtain ⟨A, B, hAB, hins⟩ := insertSorted_split x acc
  rw [hins, hAB]
  exact List.perm_middle

theorem foldl_insert_perm (l : List Element) : ∀ acc : List Element,
    List.Perm (l.foldl (fun acc x => insertSorted x acc) acc) (acc ++ l) := by
  induction l with
  | nil => intro acc; simp
  | cons x xs ih =>
    intro acc
    simp only [List.foldl_cons]
    have h1 := ih (insertSorted x acc)
    have h2 : List.Perm (insertSorted x acc ++ xs) ((x :: acc) ++ xs) :=
      (insertSorted_perm x acc).append_right xs
    have h3 : List.Perm (x :: (acc ++ xs)) (acc ++ x :: xs) := List.perm_middle.symm
    exact h1.trans (h2.trans h3)

theorem jsSortElements_perm (l : List Element) : List.Perm (jsSortElements l) l := by
  have h := foldl_insert_perm l []
  simpa [jsSortElements] using h

theorem jsSortElements_length (l : List Element) :
    (jsSortElements l).length = l.length := (jsSortElements_perm l).length_eq

theorem mem_jsSortElements {x : Element} {l : List Element} :
    x ∈ jsSortElements l ↔ x ∈ l := (jsSortElements_perm l).mem_iff

theorem insertSorted_none {x : Element} (hx : x.created_at = none) (acc : List Element) :
    insertSorted x acc = acc ++ [x] := by
  induction acc with
  | nil => rfl
  | cons y rest ih =>
    have hc : compareElements x y = 0 := by
      cases hy : y.created_at <;> simp [compareElements, hx, hy]
    simp [insertSorted, hc, ih]

theorem insertSorted_mem {w x : Element} {acc : List Element} :
    w ∈ insertSorted x acc ↔ w = x ∨ w ∈ acc := by
  obtain ⟨A, B, hAB, hins⟩ := insertSorted_split x acc
  rw [hins, hAB]
  simp [List.mem_append]
  tauto

theorem descPairB_some {a b : Element} {ta tb : Int}
    (ha : a.created_at = some ta) (hb : b.created_at = some tb) :
    descPairB a b = true ↔ tb ≤ ta := by
  simp [descPairB, ha, hb]

theorem compareElements_some {a b : Element} {ta tb : Int}
    (ha : a.created_at = some ta) (hb : b.created_at = some tb) :
    compareElements a b = tb - ta := by
  simp [compareElements, ha, hb]

theorem insertSorted_pairwise {x : Element} {acc : List Element}
    (hts : ∀ el ∈ x :: acc, el.created_at ≠ none)
    (hp : acc.Pairwise (fun a b => descPairB a b = true)) :
    (insertSorted x acc).Pairwise (fun a b => descPairB a b = true) := by
  induction acc with
  | nil => simp [insertSorted]
  | cons y rest ih =>
    obtain ⟨tx, hx⟩ := Option.ne_none_iff_exists'.mp (hts x (by simp))
    obtain ⟨ty, hy⟩ := Option.ne_none_iff_exists'.mp (hts y (by simp))
    rw [List.pairwise_cons] at hp
    obtain ⟨hyrest, hprest⟩ := hp
    by_cases h : compareElements x y < 0
    · have hlt : ty < tx := by
        have hc := compareElements_some hx hy
        omega
      simp only [insertSorted, if_pos h]
      refine List.pairwise_cons.mpr ⟨?_, List.pairwise_cons.mpr ⟨hyrest, hprest⟩⟩
      intro z hz
      rcases List.mem_cons.mp hz with rfl | hz2
      · exact (descPairB_some hx hy).mpr (le_of_lt hlt)
      · obtain ⟨tz, hzt⟩ := Option.ne_none_iff_exists'.mp (hts z (by simp [hz2]))
        have h1 := (descPairB_some hy hzt).mp (hyrest z hz2)
        exact (descPairB_some hx hzt).mpr (by omega)
    · have hle : tx ≤ ty := by
        have hc := compareElements_some hx hy
        omega
      simp only [insertSorted, if_neg h]
      refine List.pairwise_cons.mpr ⟨?_, ih ?_ hprest⟩
      · intro z hz
        rcases insertSorted_mem.mp hz with rfl | hz2
        · exact (descPairB_some hy hx).mpr hle
        · exact hyrest z hz2
      · intro el hel
        rcases List.mem_cons.mp hel with rfl | h2
        · exact hts el (by simp)
        · exact hts el (by simp [h2])

theorem foldl_insert_pairwise (l : List Element) : ∀ acc : List Element,
    (∀ el ∈ l, el.created_at ≠ none) → (∀ el ∈ acc, el.created_at ≠ none) →
    acc.Pairwise (fun a b => descPairB a b = true) →
    (l.foldl (fun acc x => insertSorted x acc) acc).Pairwise
      (fun a b => descPairB a b = true) := by
  induction l with
  | nil => intro acc _ _ hp; simpa using hp
  | cons x xs ih =>
    intro acc hl hacc hp
    simp only [List.foldl_cons]
    apply ih
    · intro el hel; exact hl el (by simp [hel])
    · intro el hel
      rcases insertSorted_mem.mp hel with rfl | h2
      · exact hl el (by simp)
      · exact hacc el h2
    · apply insertSorted_pairwise _ hp
      intro el hel
      rcases List.mem_cons.mp hel with rfl | h2
      · exact hl el (by simp)
      · exact hacc el h2

theorem insertSorted_filter_none (x : Element) (acc : List Element) :
    (insertSorted x acc).filter (fun el => el.created_at.isNone) =
      acc.filter (fun el => el.created_at.isNone) ++
        (if x.created_at.isNone then [x] else []) := by
  cases hx : x.created_at with
  | none =>
    rw [insertSorted_none hx]
    simp [List.filter_append, hx]
  | some t =>
    obtain ⟨A, B, hAB, hins⟩ := insertSorted_split x acc
    rw [hins, hAB]
    simp [List.filter_append, hx]

theorem foldl_insert_filter_none (l : List Element) : ∀ acc : List Element,
    (l.foldl (fun acc x => insertSorted x acc) acc).filter (fun el => el.created_at.isNone) =
      acc.filter (fun el => el.created_at.isNone) ++
        l.filter (fun el => el.created_at.isNone) := by
  induction l with
  | nil => intro acc; simp
  | cons x xs ih =>
    intro acc
    simp only [List.foldl_cons]
    rw [ih, insertSorted_filter_none]
    cases hx : x.created_at with
    | none => simp [hx, List.filter_cons]
    | some t => simp [hx, List.filter_cons]

/-! ## Lemmas about summary lines -/

theorem linesFrom_length (els : List Element) : ∀ i, (linesFrom i els).length = els.length := by
  induction els with
  | nil => intro i; rfl
  | cons e rest ih => intro i; simp [linesFrom, ih]

theorem linesFrom_append (A B : List Element) : ∀ i,
    linesFrom i (A ++ B) = linesFrom i A ++ linesFrom (i + A.length) B := by
  induction A with
  | nil => intro i; simp [linesFrom]
  | cons a rest ih =>
    intro i
    simp only [List.cons_append, linesFrom, List.length_cons, List.append_eq]
    rw [show i + (rest.length + 1) = i + 1 + rest.length by omega]
    rw [ih (i + 1)]

theorem truncateContent_recent {i : Nat} (h : i < 10) (c : String) :
    truncateContent i c = if 300 < c.length then sliceTo c 300 ++ "..." else c := by
  unfold truncateContent MAX_RECENT_ELEMENTS MAX_CONTENT_LENGTH
  rw [if_neg (by omega)]

theorem truncateContent_old {i : Nat} (h : 10 ≤ i) (c : String) :
    truncateContent i c = if 80 < c.length then sliceTo c 80 ++ "..." else c := by
  unfold truncateContent MAX_RECENT_ELEMENTS
  rw [if_pos (by omega)]

theorem linesFrom_recent (els : List Element) : ∀ i, i + els.length ≤ 10 →
    linesFrom i els = els.map (fun el => elTag el ++ " " ++ withNote el
      (if 300 < (derivedContent el).length then sliceTo (derivedContent el) 300 ++ "..."
       else derivedContent el)) := by
  induction els with
  | nil => intro i _; rfl
  | cons e rest ih =>
    intro i h
    simp only [List.length_cons] at h
    simp only [linesFrom, List.map_cons]
    rw [ih (i + 1) (by omega)]
    unfold renderLine
    rw [truncateContent_recent (by omega)]

theorem linesFrom_old (els : List Element) : ∀ i, 10 ≤ i →
    linesFrom i els = els.map (fun el => elTag el ++ " " ++ withNote el
      (if 80 < (derivedContent el).length then sliceTo (derivedContent el) 80 ++ "..."
       else derivedContent el)) := by
  induction els with
  | nil => intro i _; rfl
  | cons e rest ih =>
    intro i h
    simp only [linesFrom, List.map_cons]
    rw [ih (i + 1) (by omega)]
    unfold renderLine
    rw [truncateContent_old h]

theorem elTag_head (el : Element) : ∃ r, (elTag el).data = '[' :: r := by
  unfold elTag
  split
  · exact ⟨['s', 'p', 'a', 'r', 'k', ']'], rfl⟩
  · exact ⟨el.type.data ++ "]".data, by rfl⟩

theorem renderLine_head (i : Nat) (el : Element) : ∃ r, (renderLine i el).data = '[' :: r := by
  obtain ⟨r, hr⟩ := elTag_head el
  refine ⟨r ++ (" ".data ++ (withNote el (truncateContent i (derivedContent el))).data), ?_⟩
  unfold renderLine
  simp [strData_append, hr]

theorem markerLine_head (n : Nat) : ∃ r, (markerLine n).data = '\n' :: r := by
  refine ⟨['[', '.', '.', '.'] ++
    ((Nat.repr n).data ++ (" earlier elements, summarized...]").data), ?_⟩
  unfold markerLine
  simp [strData_append]

theorem markerLine_ne_renderLine (n i : Nat) (el : Element) :
    markerLine n ≠ renderLine i el := by
  intro h
  obtain ⟨r1, h1⟩ := markerLine_head n
  obtain ⟨r2, h2⟩ := renderLine_head i el
  rw [h, h2] at h1
  injection h1 with h1a h1b
  exact absurd h1a (by decide)

theorem mem_linesFrom {s : String} (els : List Element) : ∀ i, s ∈ linesFrom i els →
    ∃ j el, s = renderLine j el := by
  induction els with
  | nil => intro i h; simp [linesFrom] at h
  | cons e rest ih =>
    intro i h
    simp only [linesFrom] at h
    rcases List.mem_cons.mp h with heq | h2
    · exact ⟨i, e, heq⟩
    · exact ih (i + 1) h2

theorem contentLines_length (es : List Element) : (contentLines es).length = es.length := by
  unfold contentLines
  rw [linesFrom_length, jsSortElements_length]

/-! ## Length-bound lemmas -/

theorem sliceTo_length_le (s : String) (n : Nat) : (sliceTo s n).length ≤ n := by
  unfold sliceTo
  rw [String.mk_length]
  simp [List.length_take]

theorem truncateContent_le (i : Nat) (c : String) : (truncateContent i c).length ≤ 303 := by
  unfold truncateContent MAX_RECENT_ELEMENTS MAX_CONTENT_LENGTH
  have hdots : ("..." : String).length = 3 := rfl
  split
  · split
    · rw [strLength_append]
      have h80 := sliceTo_length_le c 80
      omega
    · rename_i hc
      omega
  · split
    · rw [strLength_append]
      have h300 := sliceTo_length_le c 300
      omega
    · rename_i hc
      omega

theorem noteSuffix_le (el : Element) (c : String) :
    (withNote el c).length ≤ c.length + 119 := by
  unfold withNote
  split
  · rename_i note heq
    split
    · omega
    · rw [strLength_append, strLength_append, strLength_append]
      have h1 : (" [user note: \"" : String).length = 14 := rfl
      have h2 : ("\"]" : String).length = 2 := rfl
      have h3 : (if 100 < note.length then sliceTo note 100 ++ "..." else note).length ≤ 103 := by
        split
        · rw [strLength_append]
          have h100 := sliceTo_length_le note 100
          have hd : ("..." : String).length = 3 := rfl
          omega
        · rename_i hn
          omega
      omega
  · omega

theorem elTag_le {el : Element} (h : el.type.length ≤ 7) : (elTag el).length ≤ 9 := by
  unfold elTag
  split
  · decide
  · rw [strLength_append, strLength_append]
    have h1 : ("[" : String).length = 1 := rfl
    have h2 : ("]" : String).length = 1 := rfl
    omega

theorem renderLine_le {el : Element} (h : el.type.length ≤ 7) (i : Nat) :
    (renderLine i el).length ≤ 432 := by
  unfold renderLine
  rw [strLength_append, strLength_append]
  have h1 := elTag_le h
  have h2 := noteSuffix_le el (truncateContent i (derivedContent el))
  have h3 := truncateContent_le i (derivedContent el)
  have h4 : (" " : String).length = 1 := rfl
  omega

theorem linesFrom_sum_le (els : List Element) : ∀ i, (∀ el ∈ els, el.type.length ≤ 7) →
    ((linesFrom i els).map String.length).sum ≤ 432 * els.length := by
  induction els with
  | nil => intro i _; simp [linesFrom]
  | cons e rest ih =>
    intro i h
    simp only [linesFrom, List.map_cons, List.sum_cons, List.length_cons]
    have h1 := renderLine_le (h e (by simp)) i
    have h2 := ih (i + 1) (fun el hel => h el (by simp [hel]))
    have h3 : 432 * (rest.length + 1) = 432 * rest.length + 432 := by ring
    omega

theorem natRepr_le (m : Nat) : (Nat.repr m).length ≤ m + 1 := by
  have hp : ∀ k : Nat, k < 10 ^ (k + 1) := by
    intro k
    induction k with
    | zero => decide
    | succ k ih =>
      have h : 10 ^ (k + 1 + 1) = 10 * 10 ^ (k + 1) := by ring
      omega
  exact Nat.repr_length m (m + 1) (by omega) (hp m)

theorem markerLine_le (m : Nat) : (markerLine m).length ≤ 39 + m := by
  unfold markerLine
  rw [strLength_append, strLength_append]
  have h1 : ("\n[..." : String).length = 5 := rfl
  have h2 : (" earlier elements, summarized...]" : String).length = 33 := rfl
  have h3 := natRepr_le m
  omega

theorem markerLine_ge (m : Nat) : 1 ≤ (markerLine m).length := by
  obtain ⟨r, hr⟩ := markerLine_head m
  rw [strLength_eq_data, hr]
  simp

theorem joinLines_le (ls : List String) :
    (joinLines ls).length ≤ (ls.map String.length).sum + ls.length := by
  induction ls with
  | nil => simp [joinLines]
  | cons l rest ih =>
    cases rest with
    | nil => simp [joinLines]
    | cons l2 rest2 =>
      simp only [joinLines] at *
      rw [strLength_append, strLength_append]
      simp only [List.map_cons, List.sum_cons, List.length_cons] at *
      have hn : ("\n" : String).length = 1 := rfl
      omega

theorem joinLines_ge (ls : List String) : (∀ l ∈ ls, 1 ≤ l.length) →
    ls.length ≤ (joinLines ls).length := by
  induction ls with
  | nil => intro _; simp [joinLines]
  | cons l rest ih =>
    intro h
    cases rest with
    | nil =>
      simp only [joinLines, List.length_cons, List.length_nil]
      have h1 := h l (by simp)
      omega
    | cons l2 rest2 =>
      simp only [joinLines] at *
      rw [strLength_append, strLength_append]
      have h1 := h l (by simp)
      have h2 := ih (fun x hx => h x (by simp [List.mem_cons] at hx ⊢; tauto))
      simp only [List.length_cons] at *
      have hn : ("\n" : String).length = 1 := rfl
      omega

theorem spliceAt_sum (k : Nat) (x : String) (ls : List String) :
    ((spliceAt k x ls).map String.length).sum = x.length + (ls.map String.length).sum := by
  unfold spliceAt
  rw [List.map_append, List.sum_append, List.map_cons, List.sum_cons]
  conv_rhs => rw [← List.take_append_drop k ls]
  rw [List.map_append, List.sum_append]
  omega

theorem spliceAt_length (k : Nat) (x : String) (ls : List String) (h : k ≤ ls.length) :
    (spliceAt k x ls).length = ls.length + 1 := by
  unfold spliceAt
  simp [List.length_take, List.length_drop]
  omega

/-! ## Lemmas about the replicated minimal element -/

theorem jsSort_replicate_plain (n : Nat) :
    jsSortElements (List.replicate n plainElement) = List.replicate n plainElement := by
  have key : ∀ k, ∀ acc : List Element,
      List.foldl (fun acc x => insertSorted x acc) acc (List.replicate k plainElement) =
        acc ++ List.replicate k plainElement := by
    intro k
    induction k with
    | zero => intro acc; simp
    | succ k ih =>
      intro acc
      simp only [List.replicate_succ, List.foldl_cons]
      rw [insertSorted_none rfl, ih]
      simp
  have h := key n []
  simpa [jsSortElements] using h

theorem renderLine_plain (i : Nat) : renderLine i plainElement = "[t] " := by
  have hd : derivedContent plainElement = "" := rfl
  unfold renderLine
  rw [hd]
  have ht : truncateContent i "" = "" := by
    unfold truncateContent MAX_RECENT_ELEMENTS MAX_CONTENT_LENGTH
    split
    · rw [if_neg (by decide)]
    · rw [if_neg (by decide)]
  rw [ht]
  rfl

theorem linesFrom_replicate_plain (n : Nat) : ∀ i,
    linesFrom i (List.replicate n plainElement) = List.replicate n "[t] " := by
  induction n with
  | zero => intro i; rfl
  | succ n ih =>
    intro i
    simp only [List.replicate_succ, linesFrom]
    rw [renderLine_plain, ih]

theorem summary_replicate_ge (n : Nat) (h1 : 1 ≤ n) :
    n ≤ (buildElementsSummary (List.replicate n plainElement)).length := by
  have hcl : contentLines (List.replicate n plainElement) = List.replicate n "[t] " := by
    unfold contentLines
    rw [jsSort_replicate_plain, linesFrom_replicate_plain]
  have hrep : (List.replicate n plainElement).length = n := by simp
  unfold buildElementsSummary
  rw [if_neg (by simp; omega)]
  have hlines : ∀ l ∈ summaryLines (List.replicate n plainElement), 1 ≤ l.length := by
    intro l hl
    unfold summaryLines MAX_RECENT_ELEMENTS at hl
    split at hl
    · unfold spliceAt at hl
      rcases List.mem_append.mp hl with hm | hm
      · have hmem := List.take_subset _ _ hm
        rw [hcl] at hmem
        rw [List.eq_of_mem_replicate hmem]
        decide
      · rcases List.mem_cons.mp hm with heq | hm2
        · rw [heq]
          exact markerLine_ge _
        · have hmem := List.drop_subset _ _ hm2
          rw [hcl] at hmem
          rw [List.eq_of_mem_replicate hmem]
          decide
    · rw [hcl] at hl
      rw [List.eq_of_mem_replicate hl]
      decide
  have hge := joinLines_ge _ hlines
  have hlen : n ≤ (summaryLines (List.replicate n plainElement)).length := by
    have hcln : (contentLines (List.replicate n plainElement)).length = n := by
      rw [contentLines_length, List.length_replicate]
    unfold summaryLines MAX_RECENT_ELEMENTS
    split
    · rw [spliceAt_length _ _ _ (by omega)]
      omega
    · omega
  omega


/-! ## Lemmas about the system prompt composer -/

theorem earlyStageNote_ne_empty (n : Nat) : earlyStageNote n ≠ "" := by
  apply strNe_empty_of_length_pos
  unfold earlyStageNote
  rw [strLength_append, strLength_append]
  have h : (0:Nat) < ("This is an early-stage idea with only " : String).length := by decide
  omega

theorem substantialNote_ne_empty (n : Nat) : substantialNote n ≠ "" := by
  apply strNe_empty_of_length_pos
  unfold substantialNote
  rw [strLength_append, strLength_append]
  have h : (0:Nat) < ("This idea has " : String).length := by decide
  omega

theorem contextWithFalsyThinking (t s : String) (th : Option String)
    (hth : optTruthy th = false) :
    systemPromptContext t th s =
      SYSTEM_PROMPT_BASE ++ "\n\nCONTEXT:\nThe user is developing an idea called \"" ++
        t ++ "\".\n" ++
      ("\n" ++ "They haven't written their current thinking yet.") ++ "\n" ++
      (if s != "" then "\n" ++ "Their collected elements:\n" ++ s
       else "\n" ++ "No elements collected yet.") ++ "\n" := by
  unfold systemPromptContext
  rw [hth]
  simp

/-! ## Claim theorems -/

/-- Claim C1, counterexample: no fixed constant bounds the length of
`buildElementsSummary` over all element collections.  The builder emits
one line per element (each at least one character, joined by newlines),
so a collection of `C + 1` minimal elements already yields a summary
longer than `C`. -/
theorem summary_length_unbounded :
    ¬ ∃ C : Nat, ∀ elements : List Element, (buildElementsSummary elements).length ≤ C := by
  rintro ⟨C, hC⟩
  have h1 := summary_replicate_ge (C + 1) (by omega)
  have h2 := hC (List.replicate (C + 1) plainElement)
  omega

/-- Claim C1, amended: each element contributes a bounded number of
characters (the truncation policy caps derived content at 303 and the
note at 103 characters, and the element `type` is one of the data
model's six enum values, hence at most 7 characters), so the total
summary length is at most linear in the element count — but not
constant-bounded, since one line is emitted per element. -/
theorem summary_length_linear :
    ∀ elements : List Element,
      (∀ el ∈ elements, el.type.length ≤ 7) →
      (buildElementsSummary elements).length ≤ 434 * elements.length + 40 := by
  intro es h
  have htypes : ∀ el ∈ jsSortElements es, el.type.length ≤ 7 := fun el hel =>
    h el (mem_jsSortElements.mp hel)
  have hsum : ((contentLines es).map String.length).sum ≤ 432 * es.length := by
    have h0 := linesFrom_sum_le (jsSortElements es) 0 htypes
    rw [jsSortElements_length] at h0
    exact h0
  have hcl := contentLines_length es
  unfold buildElementsSummary
  split
  · simp
  · unfold summaryLines MAX_RECENT_ELEMENTS
    split
    · rename_i h10
      have hsp := spliceAt_sum 10 (markerLine (es.length - 10)) (contentLines es)
      have hsplen : (spliceAt 10 (markerLine (es.length - 10)) (contentLines es)).length =
          es.length + 1 := by
        rw [spliceAt_length _ _ _ (by omega)]
        omega
      have hj := joinLines_le (spliceAt 10 (markerLine (es.length - 10)) (contentLines es))
      have hm := markerLine_le (es.length - 10)
      omega
    · have hj := joinLines_le (contentLines es)
      omega

/-- Witness for the amended claim C1 at a concrete one-element
collection. -/
theorem summary_length_linear_witness :
    (buildElementsSummary [plainElement]).length ≤
      434 * ([plainElement] : List Element).length + 40 :=
  summary_length_linear [plainElement] (by decide)

/-- Claim C2: for a collection of more than 10 elements, the summary's
line list is the first 10 content lines (exactly 10 of them), then the
single marker line `\n[...<N> earlier elements, summarized...]` with
`N = total - 10`, then the remaining content lines; the marker occurs
exactly once (content lines start with `[`, the marker with a newline).
For a collection of at most 10 elements no marker line is present. -/
theorem marker_insertion :
    ∀ elements : List Element,
      (10 < elements.length →
        summaryLines elements =
          (contentLines elements).take 10 ++
            markerLine (elements.length - 10) :: (contentLines elements).drop 10 ∧
        ((contentLines elements).take 10).length = 10 ∧
        (summaryLines elements).count (markerLine (elements.length - 10)) = 1) ∧
      (elements.length ≤ 10 →
        summaryLines elements = contentLines elements ∧
        ∀ n, markerLine n ∉ summaryLines elements) := by
  intro es
  have hnot : ∀ s ∈ contentLines es, ∀ n, s ≠ markerLine n := by
    intro s hs n
    obtain ⟨j, el, rfl⟩ := mem_linesFrom _ _ hs
    exact (markerLine_ne_renderLine n j el).symm
  constructor
  · intro h
    have hsl : summaryLines es =
        (contentLines es).take 10 ++
          markerLine (es.length - 10) :: (contentLines es).drop 10 := by
      unfold summaryLines MAX_RECENT_ELEMENTS spliceAt
      rw [if_pos (by omega : (10:Nat) < es.length)]
    have hcl := contentLines_length es
    have htake : ((contentLines es).take 10).length = 10 := by
      rw [List.length_take]
      omega
    refine ⟨hsl, htake, ?_⟩
    rw [hsl, List.count_append]
    have h1 : List.count (markerLine (es.length - 10)) ((contentLines es).take 10) = 0 := by
      apply List.count_eq_zero.mpr
      intro hmem
      exact hnot _ (List.take_subset _ _ hmem) _ rfl
    have h2 : List.count (markerLine (es.length - 10)) ((contentLines es).drop 10) = 0 := by
      apply List.count_eq_zero.mpr
      intro hmem
      exact hnot _ (List.drop_subset _ _ hmem) _ rfl
    rw [h1, List.count_cons_self, h2]
  · intro h
    have hsl : summaryLines es = contentLines es := by
      unfold summaryLines MAX_RECENT_ELEMENTS
      rw [if_neg (by omega : ¬ (10:Nat) < es.length)]
    refine ⟨hsl, ?_⟩
    intro n hmem
    rw [hsl] at hmem
    exact hnot _ hmem n rfl

/-- Witness for claim C2 at a concrete 11-element collection: one marker
line with count 1, immediately after the 10th content line. -/
theorem marker_insertion_witness :
    summaryLines (List.replicate 11 plainElement) =
      (contentLines (List.replicate 11 plainElement)).take 10 ++
        markerLine ((List.replicate 11 plainElement).length - 10) ::
          (contentLines (List.replicate 11 plainElement)).drop 10 ∧
    ((contentLines (List.replicate 11 plainElement)).take 10).length = 10 ∧
    (summaryLines (List.replicate 11 plainElement)).count
      (markerLine ((List.replicate 11 plainElement).length - 10)) = 1 :=
  (marker_insertion (List.replicate 11 plainElement)).1 (by decide)

/-- Claim C3: for a collection of at most 10 elements every line uses the
300-character truncation rule (never the 80-character one), and, in any
collection, every element at 0-based sorted index 10 or greater uses the
80-character hard truncation with trailing ellipsis. -/
theorem truncation_policy :
    ∀ elements : List Element,
      (elements.length ≤ 10 →
        contentLines elements = (jsSortElements elements).map (fun el =>
          elTag el ++ " " ++ withNote el
            (if 300 < (derivedContent el).length then sliceTo (derivedContent el) 300 ++ "..."
             else derivedContent el))) ∧
      contentLines elements =
        linesFrom 0 ((jsSortElements elements).take 10) ++
          ((jsSortElements elements).drop 10).map (fun el =>
            elTag el ++ " " ++ withNote el
              (if 80 < (derivedContent el).length then sliceTo (derivedContent el) 80 ++ "..."
               else derivedContent el)) := by
  intro es
  constructor
  · intro h
    unfold contentLines
    apply linesFrom_recent
    rw [jsSortElements_length]
    omega
  · unfold contentLines
    conv_lhs => rw [← List.take_append_drop 10 (jsSortElements es)]
    rw [linesFrom_append]
    congr 1
    rcases le_or_lt (jsSortElements es).length 10 with hle | hlt
    · have hd : (jsSortElements es).drop 10 = [] := List.drop_eq_nil_iff.mpr hle
      rw [hd]
      rfl
    · have ht : ((jsSortElements es).take 10).length = 10 := by
        rw [List.length_take]
        omega
      rw [ht]
      exact linesFrom_old _ (0 + 10) (by omega)

/-- Witness for claim C3 at a concrete one-element collection. -/
theorem truncation_policy_witness :
    contentLines [plainElement] = (jsSortElements [plainElement]).map (fun el =>
      elTag el ++ " " ++ withNote el
        (if 300 < (derivedContent el).length then sliceTo (derivedContent el) 300 ++ "..."
         else derivedContent el)) :=
  (truncation_policy [plainElement]).1 (by decide)

/-- Claim C4, counterexample: the claim that the sort both orders elements
by `created_at` descending and keeps every element lacking a timestamp in
its encountered relative order with respect to all other elements fails:
on the input `[elTs1, elNoTs, elTs5]` (timestamps 1, missing, 5) the two
requirements are contradictory, and the code's output violates the
relative-order conjunct. -/
theorem sort_claim_counterexample :
    ¬ ∀ elements : List Element,
        (jsSortElements elements).Pairwise (fun a b => descPairB a b = true) ∧
        keepsEncounteredOrder elements (jsSortElements elements) := by
  intro h
  obtain ⟨-, hkeep⟩ := h [elTs1, elNoTs, elTs5]
  unfold keepsEncounteredOrder at hkeep
  exact absurd (hkeep ⟨1, by decide⟩ ⟨2, by decide⟩ (by decide) (by decide)) (by decide)

/-- Claim C4, amended: when every element has a `created_at`, the sort
orders them descending by timestamp; elements missing a timestamp keep
their encountered relative order with respect to each other (the
comparator ties them with everything, and the sort is stable), but their
position relative to timestamped elements is unspecified; the output is
a permutation of the input. -/
theorem sort_order_amended :
    ∀ elements : List Element,
      ((∀ el ∈ elements, el.created_at ≠ none) →
        (jsSortElements elements).Pairwise (fun a b => descPairB a b = true)) ∧
      (jsSortElements elements).filter (fun el => el.created_at.isNone) =
        elements.filter (fun el => el.created_at.isNone) ∧
      List.Perm (jsSortElements elements) elements := by
  intro es
  refine ⟨?_, ?_, jsSortElements_perm es⟩
  · intro h
    exact foldl_insert_pairwise es [] h (by simp) (by simp)
  · have h := foldl_insert_filter_none es []
    simpa [jsSortElements] using h

/-- Witness for the amended claim C4 at a concrete all-timestamped
collection. -/
theorem sort_order_amended_witness :
    (jsSortElements [elTs1, elTs5]).Pairwise (fun a b => descPairB a b = true) :=
  (sort_order_amended [elTs1, elTs5]).1 (by decide)

/-- Claim C5: `metaUrl` returns `metadata.url` when present and
non-empty, otherwise `metadata.public_url` (absent when that is absent);
`metaFilename` returns `metadata.filename`, else `metadata.file_name`,
else the literal `"File"` (it is a total `String`, never absent); a
legacy key is never preferred over a canonical one, and the result is
always one of the stored values (or the `"File"` default) — never a
merge of both. -/
theorem metadata_resolution :
    ∀ m : Metadata,
      (∀ s, m.url = some s → s ≠ "" → metaUrl m = some s) ∧
      ((m.url = none ∨ m.url = some "") → metaUrl m = m.public_url) ∧
      (∀ s, m.filename = some s → s ≠ "" → metaFilename m = s) ∧
      (∀ s, (m.filename = none ∨ m.filename = some "") → m.file_name = some s → s ≠ "" →
        metaFilename m = s) ∧
      ((m.filename = none ∨ m.filename = some "") →
        (m.file_name = none ∨ m.file_name = some "") → metaFilename m = "File") ∧
      (metaUrl m = m.url ∨ metaUrl m = m.public_url) ∧
      (m.filename = some (metaFilename m) ∨ m.file_name = some (metaFilename m) ∨
        metaFilename m = "File") := by
  intro m
  refine ⟨?_, ?_, ?_, ?_, ?_, ?_, ?_⟩
  · intro s hs hne
    simp [metaUrl, jsOr, optTruthy, hs, hne]
  · rintro (h | h) <;> simp [metaUrl, jsOr, optTruthy, h]
  · intro s hs hne
    simp [metaFilename, optTruthy, hs, hne]
  · rintro s (h | h) hf hne <;> simp [metaFilename, optTruthy, h, hf, hne]
  · rintro (h | h) (h2 | h2) <;> simp [metaFilename, optTruthy, h, h2]
  · unfold metaUrl jsOr
    split
    · exact Or.inl rfl
    · exact Or.inr rfl
  · unfold metaFilename
    split
    · rename_i ht
      left
      cases hf : m.filename with
      | none => rw [hf] at ht; exact absurd ht (by decide)
      | some s => exact rfl
    · split
      · rename_i ht
        right; left
        cases hf : m.file_name with
        | none => rw [hf] at ht; exact absurd ht (by decide)
        | some s => exact rfl
      · exact Or.inr (Or.inr rfl)

/-- Witness for claim C5: canonical url preferred over legacy, and the
`"File"` default on an empty metadata map. -/
theorem metadata_resolution_witness :
    metaUrl { url := some "a", public_url := some "b" } = some "a" ∧
    metaFilename {} = "File" :=
  ⟨(metadata_resolution _).1 "a" rfl (by decide),
   (metadata_resolution _).2.2.2.2.1 (Or.inl rfl) (Or.inl rfl)⟩

/-- Claim C6: whenever an element's metadata carries a (truthy) note, its
summary line is exactly the tagged, truncated content followed by
` [user note: "<note cut at 100>"]` — at every sorted index, including
indices 10 and later where the content itself was truncated to 80
characters; the note's 100-character truncation is applied to the note
alone, independently of the content truncation. -/
theorem note_always_shown :
    ∀ (index : Nat) (el : Element) (note : String),
      el.metadata.note = some note → note ≠ "" →
      renderLine index el =
        elTag el ++ " " ++ truncateContent index (derivedContent el) ++ " [user note: \"" ++
          (if 100 < note.length then sliceTo note 100 ++ "..." else note) ++ "\"]" := by
  intro i el note h hne
  simp only [renderLine, withNote, h]
  rw [if_neg hne]
  simp only [strAppend_assoc]

/-- Witness for claim C6 at sorted index 10 with 100 characters of
content (hence 80-character truncation) and a note. -/
theorem note_always_shown_witness :
    renderLine 10 elWithNote =
      elTag elWithNote ++ " " ++ truncateContent 10 (derivedContent elWithNote) ++
        " [user note: \"" ++
        (if 100 < ("keep this" : String).length then sliceTo "keep this" 100 ++ "..."
         else "keep this") ++ "\"]" :=
  note_always_shown 10 elWithNote "keep this" rfl (by decide)

/-- Claim C7: with `elementCount ≤ 3` the system prompt is the context
followed by the early-stage note (so it contains that note); with
`elementCount ≥ 15` it is the context followed by the
substantial-material note; strictly between, the output is exactly the
context with no note appended.  The no-note case is stated as an
equality rather than as non-containment because an adversarial idea
title could itself embed the note text. -/
theorem maturity_note_thresholds :
    ∀ (ideaTitle : String) (currentThinking : Option String) (elementsSummary : String)
      (elementCount : Nat),
      (elementCount ≤ 3 →
        getSystemPromptWithIdea ideaTitle currentThinking elementsSummary elementCount =
          systemPromptContext ideaTitle currentThinking elementsSummary ++
            ("\n" ++ earlyStageNote elementCount) ∧
        strContains
          (getSystemPromptWithIdea ideaTitle currentThinking elementsSummary elementCount)
          (earlyStageNote elementCount)) ∧
      (15 ≤ elementCount →
        getSystemPromptWithIdea ideaTitle currentThinking elementsSummary elementCount =
          systemPromptContext ideaTitle currentThinking elementsSummary ++
            ("\n" ++ substantialNote elementCount) ∧
        strContains
          (getSystemPromptWithIdea ideaTitle currentThinking elementsSummary elementCount)
          (substantialNote elementCount)) ∧
      (3 < elementCount → elementCount < 15 →
        getSystemPromptWithIdea ideaTitle currentThinking elementsSummary elementCount =
          systemPromptContext ideaTitle currentThinking elementsSummary) := by
  intro t th s n
  refine ⟨?_, ?_, ?_⟩
  · intro h3
    have hmn : maturityNote n = earlyStageNote n := by
      unfold maturityNote; rw [if_pos h3]
    have hne : (maturityNote n != "") = true := by
      rw [hmn, bne_iff_ne]; exact earlyStageNote_ne_empty n
    have heq : getSystemPromptWithIdea t th s n =
        systemPromptContext t th s ++ ("\n" ++ earlyStageNote n) := by
      unfold getSystemPromptWithIdea
      rw [if_pos hne, hmn]
    refine ⟨heq, systemPromptContext t th s ++ "\n", "", ?_⟩
    rw [heq, strAppend_empty, strAppend_assoc]
  · intro h15
    have hmn : maturityNote n = substantialNote n := by
      unfold maturityNote; rw [if_neg (by omega), if_pos h15]
    have hne : (maturityNote n != "") = true := by
      rw [hmn, bne_iff_ne]; exact substantialNote_ne_empty n
    have heq : getSystemPromptWithIdea t th s n =
        systemPromptContext t th s ++ ("\n" ++ substantialNote n) := by
      unfold getSystemPromptWithIdea
      rw [if_pos hne, hmn]
    refine ⟨heq, systemPromptContext t th s ++ "\n", "", ?_⟩
    rw [heq, strAppend_empty, strAppend_assoc]
  · intro h3 h15
    have hmn : maturityNote n = "" := by
      unfold maturityNote; rw [if_neg (by omega), if_neg (by omega)]
    unfold getSystemPromptWithIdea
    rw [hmn, if_neg (by decide)]
    exact strAppend_empty _

/-- Witness for claim C7 at `elementCount = 2`: the early-stage note is
appended and contained in the output. -/
theorem maturity_note_thresholds_witness :
    getSystemPromptWithIdea "T" none "" 2 =
      systemPromptContext "T" none "" ++ ("\n" ++ earlyStageNote 2) ∧
    strContains (getSystemPromptWithIdea "T" none "" 2) (earlyStageNote 2) :=
  (maturity_note_thresholds "T" none "" 2).1 (by decide)

/-- Claim C8: for every action identifier outside the recognized set the
user-prompt selection returns the generic fallback prompt; the selection
is a total function of the identifier (no error case exists). -/
theorem unrecognized_action_fallback :
    ∀ (sparkType : String) (customPrompt : Option String),
      sparkType ∉ recognizedSparkTypes →
      selectUserPrompt sparkType customPrompt = "What do you think about my idea so far?" := by
  intro s cp h
  simp [recognizedSparkTypes] at h
  obtain ⟨h1, h2, h3, h4, h5, h6, h7⟩ := h
  simp [selectUserPrompt, h1, h2, h3, h4, h5, h6, h7]

/-- Witness for claim C8 at the unrecognized identifier `"so-what"`. -/
theorem unrecognized_action_fallback_witness :
    selectUserPrompt "so-what" none = "What do you think about my idea so far?" :=
  unrecognized_action_fallback "so-what" none (by decide)

/-- Claim C9: with the JS heap modelled explicitly,
`buildElementsSummary` leaves the caller's array untouched: the spread
`[...elements]` copies the array into a fresh reference, the in-place
sort mutates only that copy, and the function's result equals the pure
`buildElementsSummary` of the caller's (unchanged) array. -/
theorem summary_does_not_mutate_input :
    ∀ (store : Nat → List Element) (elementsRef newRef : Nat),
      newRef ≠ elementsRef →
      (buildElementsSummaryHeap store elementsRef newRef).2 elementsRef = store elementsRef ∧
      (buildElementsSummaryHeap store elementsRef newRef).1 =
        buildElementsSummary (store elementsRef) := by
  intro store eRef nRef hne
  have hne2 : ¬ (eRef = nRef) := fun h => hne h.symm
  simp only [buildElementsSummaryHeap, buildElementsSummary, summaryLines, contentLines,
    MAX_RECENT_ELEMENTS]
  split
  · exact ⟨rfl, rfl⟩
  · constructor
    · simp [hne2]
    · simp

/-- Witness for claim C9 at a concrete heap. -/
theorem summary_does_not_mutate_input_witness :
    (buildElementsSummaryHeap (fun _ => [plainElement]) 0 1).2 0 = [plainElement] ∧
    (buildElementsSummaryHeap (fun _ => [plainElement]) 0 1).1 =
      buildElementsSummary [plainElement] :=
  summary_does_not_mutate_input (fun _ => [plainElement]) 0 1 (by decide)

/-- Claim C10: an empty-string `currentThinking` yields exactly the same
system prompt as a missing one, and that prompt contains the fixed
placeholder sentence (the JS template's truthiness test treats the empty
string like `null`, so no quoted current-thinking block is produced). -/
theorem empty_thinking_as_missing :
    ∀ (ideaTitle elementsSummary : String) (elementCount : Nat),
      getSystemPromptWithIdea ideaTitle (some "") elementsSummary elementCount =
        getSystemPromptWithIdea ideaTitle none elementsSummary elementCount ∧
      strContains (getSystemPromptWithIdea ideaTitle (some "") elementsSummary elementCount)
        "They haven't written their current thinking yet." := by
  intro t s n
  refine ⟨rfl, ?_⟩
  refine ⟨SYSTEM_PROMPT_BASE ++ "\n\nCONTEXT:\nThe user is developing an idea called \"" ++
        t ++ "\".\n" ++ "\n",
      "\n" ++
      ((if s != "" then "\n" ++ "Their collected elements:\n" ++ s
        else "\n" ++ "No elements collected yet.") ++ ("\n" ++
      (if maturityNote n != "" then "\n" ++ maturityNote n else ""))), ?_⟩
  unfold getSystemPromptWithIdea
  rw [contextWithFalsyThinking t s (some "") rfl]
  apply String.ext
  simp only [strData_append, List.append_assoc]

end Spark
